import Mathlib

/-!
Shallow embedding of the two source files of resonite-wikipedia-speedrun
(`modules/WikipediaClient.py` and `modules/FlaskAPIServer.py`).

Python strings are modelled as `List Char`; Python string operations used by
the source (`split`, `replace`, `ljust`, slicing, `startswith`, f-string
minimum-width formatting) are defined below with Python semantics.  Remote
HTTP calls, the on-disk document collection and the PDF-parsing collaborator
are abstracted as explicit inputs; an exception raised by Python code is
modelled with `Except`.  The unbounded sampling loop is given explicit fuel
(one unit per `while` iteration) and returns `none` when the fuel is spent
before the loop exits, so every theorem about a terminating run is stated as
a hypothesis that the loop returned `some` result.
-/

/-- A Python `str`, as its sequence of characters. -/
abbrev PyStr := List Char

/-- Python `s.ljust(w)`: pad on the right with spaces up to width `w`;
a string already at least `w` long is returned unchanged (no truncation). -/
def pyLjust (s : PyStr) (w : Nat) : PyStr :=
  s ++ List.replicate (w - s.length) ' '

/-- Python `s.replace(old, new)` for single-character `old`/`new`. -/
def pyReplaceChar (s : PyStr) (old new : Char) : PyStr :=
  s.map (fun c => if c = old then new else c)

/-- Worker for Python `s.split(sep)` with a non-empty separator: scan left to
right, cutting at each leftmost non-overlapping occurrence of `sep`.  The
fuel argument makes the recursion structural; `pySplit` supplies fuel equal
to the length of the string, which is always sufficient. -/
def pySplitGo (sep : PyStr) : Nat → PyStr → List PyStr
  | _, [] => [[]]
  | 0, s => [s]
  | fuel + 1, c :: rest =>
    if sep ≠ [] ∧ sep.isPrefixOf (c :: rest) then
      [] :: pySplitGo sep fuel (List.drop (sep.length - 1) rest)
    else
      match pySplitGo sep fuel rest with
      | [] => [[c]]
      | p :: ps => (c :: p) :: ps

/-- Python `s.split(sep)` (non-empty `sep`). -/
def pySplit (sep s : PyStr) : List PyStr :=
  pySplitGo sep s.length s

/-- The wiki path marker used by the Article constructor:
`WikipediaClient.py` line 15 splits the URL on this string. -/
def wiki_marker : PyStr := "wikipedia.org/wiki/".toList

/-- The fixed PDF-rendition URL template head (`WikipediaClient.py` lines 16 and 24). -/
def pdf_url_base : PyStr := "https://en.wikipedia.org/api/rest_v1/page/pdf/".toList

/-- `WikipediaClient.ARTICLE_URL` (line 65). -/
def ARTICLE_URL : PyStr := "https://en.wikipedia.org/wiki/".toList

/-- The fields of `WikipediaArticle` (`WikipediaClient.py` lines 11-20).
The `hashed_url` md5 fingerprint is not modelled: no claim mentions it and
hashing is opaque to this development. -/
structure WikipediaArticle where
  title : PyStr
  title_url_safe : PyStr
  pdf_url : PyStr
  url : PyStr
  links : List PyStr
  summary : PyStr
deriving DecidableEq

/-- `WikipediaArticle.get_pdf_url_from_title_url_safe` (lines 22-24):
f-string interpolation of the template. -/
def WikipediaArticle.get_pdf_url_from_title_url_safe (title_url_safe : PyStr) : PyStr :=
  pdf_url_base ++ title_url_safe

/-- `WikipediaArticle.__init__` (lines 12-20).  Python's
`url.split("wikipedia.org/wiki/")[1]` raises IndexError when the marker does
not occur in `url`; construction is therefore partial, `none` meaning the
constructor raised. -/
def mkWikipediaArticle (title url : PyStr) (links : List PyStr) (summary : PyStr) :
    Option WikipediaArticle :=
  match (pySplit wiki_marker url)[1]? with
  | none => none
  | some tus =>
    some { title := title
           title_url_safe := tus
           pdf_url := WikipediaArticle.get_pdf_url_from_title_url_safe tus
           url := url
           links := links
           summary := summary }

/-- The literal ellipsis marker appended to the summary field (line 47). -/
def ellipsis : PyStr := "...".toList

/-- The summary field of `as_resonite_string` (lines 44-48):
`(self.summary[:297] + "...").ljust(300)` — the slice and the marker are
applied unconditionally, before padding. -/
def summary_field (s : PyStr) : PyStr :=
  pyLjust (s.take 297 ++ ellipsis) 300

/-- `WikipediaArticle.as_resonite_string` (lines 26-50): three
truncate-then-pad fields of width 100 (title, title_url_safe, pdf_url)
followed by the width-300 summary field. -/
def WikipediaArticle.as_resonite_string (a : WikipediaArticle) : PyStr :=
  pyLjust (a.title.take 100) 100 ++
  pyLjust (a.title_url_safe.take 100) 100 ++
  pyLjust (a.pdf_url.take 100) 100 ++
  summary_field a.summary

/-- The fixed-width record codec applied to a sequence of articles: the
per-article record of `as_resonite_string`, concatenated with no separator. -/
def encode (articles : List WikipediaArticle) : PyStr :=
  articles.flatMap (fun a => a.as_resonite_string)

/-- Observable timing/IO events of the sampling loop
(`time.sleep(5)` at line 163, the batch fetch at line 165). -/
inductive Ev where
  | sleep (units : Nat)
  | fetch
deriving DecidableEq

/-- The inner `for article in articles` loop of `get_articles_with_min_links`
(lines 166-177): keep an article when its link count reaches `min_links` and
its title is not yet in the seen-title set; stop scanning the batch as soon
as the accepted list reaches `n_articles`. -/
def processBatch (min_links n_articles : Nat) :
    List WikipediaArticle → List WikipediaArticle → List PyStr →
    List WikipediaArticle × List PyStr
  | [], acc, seen => (acc, seen)
  | a :: rest, acc, seen =>
    if min_links ≤ a.links.length then
      if a.title ∈ seen then
        processBatch min_links n_articles rest acc seen
      else
        let acc2 := acc ++ [a]
        let seen2 := seen ++ [a.title]
        if acc2.length = n_articles then (acc2, seen2)
        else processBatch min_links n_articles rest acc2 seen2
    else
      processBatch min_links n_articles rest acc seen

/-- The outer `while` loop of `get_articles_with_min_links` (lines 155-181).
`source i c` stands for the batch the remote random-article query returns on
iteration `i` when asked for `c` articles.  One unit of fuel is one loop
iteration; `none` means the fuel ran out with the quota still unmet (the
Python loop would simply keep running).  The event trace accumulates the
sleep performed when `iterations > 0` and the fetch of each iteration. -/
def sampleGo (source : Nat → Nat → List WikipediaArticle)
    (n_articles min_links count_per_call : Nat) :
    Nat → Nat → List WikipediaArticle → List PyStr → List Ev →
    Option (List WikipediaArticle × List Ev)
  | 0, _, acc, _, tr =>
    if acc.length < n_articles then none else some (acc, tr)
  | fuel + 1, iterations, acc, seen, tr =>
    if acc.length < n_articles then
      let tr1 := if 0 < iterations then tr ++ [Ev.sleep 5] else tr
      let tr2 := tr1 ++ [Ev.fetch]
      let r := processBatch min_links n_articles (source iterations count_per_call) acc seen
      sampleGo source n_articles min_links count_per_call fuel (iterations + 1) r.1 r.2 tr2
    else some (acc, tr)

/-- `WikipediaClient.get_articles_with_min_links` (lines 147-181), returning
the accepted articles together with the observable event trace. -/
def get_articles_with_min_links (source : Nat → Nat → List WikipediaArticle)
    (n_articles min_links count_per_call fuel : Nat) :
    Option (List WikipediaArticle × List Ev) :=
  sampleGo source n_articles min_links count_per_call fuel 0 [] [] []

/-- One article's contribution to the body of GET /articles
(`FlaskAPIServer.py` line 47): the f-string
`f"{article.title:<100}{article.summary:<100}{article.pdf_url:<100}"`.
Format spec `:<100` is a minimum width: it pads but never truncates. -/
def server_article_record (a : WikipediaArticle) : PyStr :=
  pyLjust a.title 100 ++ pyLjust a.summary 100 ++ pyLjust a.pdf_url 100

/-- `FlaskAPIServer.construct_article_pairs_string` (lines 42-48): iterate
over the articles two at a time and append each article's record. -/
def construct_article_pairs_string : List WikipediaArticle → PyStr
  | [] => []
  | [a] => server_article_record a
  | a :: b :: rest =>
    server_article_record a ++ server_article_record b ++
    construct_article_pairs_string rest

/-- The GET /articles handler (`FlaskAPIServer.py` lines 16-20):
sample with `n_articles=10, min_links=5, count_per_call=100` and serialize
with `construct_article_pairs_string`. -/
def get_articles_body (source : Nat → Nat → List WikipediaArticle) (fuel : Nat) :
    Option PyStr :=
  (get_articles_with_min_links source 10 5 100 fuel).map
    (fun r => construct_article_pairs_string r.1)

/-- An exception raised by the modelled Python code. -/
inductive PyErr where
  | transport
  | index
deriving DecidableEq

deriving instance DecidableEq for Except

/-- One page of the remote query response consumed by
`get_article_by_title` (lines 206-210): its title, the titles of its
outbound links, and its plain-text extract. -/
structure RemotePage where
  title : PyStr
  links : List PyStr
  extract : PyStr
deriving DecidableEq

/-- The outcome of the remote `requests.get` in `get_article_by_title`:
either a raised transport/parse exception (non-success status in
`raise_for_status`, or an unparseable body), or a parsed response whose
`missing` flag models the `"-1"` key in `data['query']['pages']`. -/
inductive RemoteResponse where
  | err
  | ok (missing : Bool) (pages : List RemotePage)

/-- `WikipediaClient.get_article_by_title` (lines 186-213), as a function of
the remote response for the requested title.  A raised exception is
`Except.error`; `Except.ok none` is the no-matching-page outcome. -/
def get_article_by_title (resp : RemoteResponse) :
    Except PyErr (Option WikipediaArticle) :=
  match resp with
  | .err => .error .transport
  | .ok missing pages =>
    if missing then .ok none
    else
      match pages with
      | [] => .ok none
      | p :: _ =>
        match mkWikipediaArticle p.title
            (ARTICLE_URL ++ pyReplaceChar p.title ' ' '_')
            (p.links.map (fun t => ARTICLE_URL ++ pyReplaceChar t ' ' '_'))
            p.extract with
        | some a => .ok (some a)
        | none => .error .index

/-- `WikipediaClient.get_article_by_url` (lines 215-233).  `remote t` is the
remote response the API gives for title `t`.  The function first checks the
ARTICLE_URL prefix; the whole try-block — URL splitting and the delegated
`get_article_by_title` call — is wrapped in `except Exception: return None`,
so every raised error is absorbed into `Except.ok none`. -/
def get_article_by_url (remote : PyStr → RemoteResponse) (url : PyStr) :
    Except PyErr (Option WikipediaArticle) :=
  if ARTICLE_URL.isPrefixOf url then
    let attempt : Except PyErr (Option WikipediaArticle) :=
      match (pySplit ARTICLE_URL url)[1]? with
      | none => .error .index
      | some title_url_safe =>
        get_article_by_title (remote (pyReplaceChar title_url_safe '_' ' '))
    match attempt with
    | .error _ => .ok none
    | .ok r => .ok r
  else
    .ok none

/-- The document the GET /get_url_at_position handler resolves
(`FlaskAPIServer.py` lines 30-34): look up the filename in the collection;
when absent, download and look it up again.  `collection` is the index
before the download, `afterDownload` the index after it.  A document is a
map from the (page, x, y) query data `P` to the embedded link found there
(`none` models the collaborator reporting no hyperlink). -/
def resolved_document {P : Type} (collection afterDownload : PyStr → Option (P → Option PyStr))
    (filename : PyStr) : Option (P → Option PyStr) :=
  match collection filename with
  | some d => some d
  | none => afterDownload filename

/-- The extension appended to the article key to obtain the local PDF
filename (`FlaskAPIServer.py` line 29). -/
def pdf_ext : PyStr := ".pdf".toList

/-- The GET /get_url_at_position handler (`FlaskAPIServer.py` lines 22-40).
If the document is still absent after the download retry, Python calls a
method on `None` and raises (`Except.error`).  Otherwise the handler tests
the reported link for Python truthiness (`if url:`) — `None` and the empty
string are both falsy — and returns the PDF URL derived from
`title_url_safe`, not the reported link itself. -/
def get_url_at_position {P : Type}
    (collection afterDownload : PyStr → Option (P → Option PyStr))
    (title_url_safe : PyStr) (p : P) : Except PyErr PyStr :=
  let filename := title_url_safe ++ pdf_ext
  match resolved_document collection afterDownload filename with
  | none => .error .index
  | some doc =>
    match doc p with
    | some u =>
      if u = [] then .ok []
      else .ok (WikipediaArticle.get_pdf_url_from_title_url_safe title_url_safe)
    | none => .ok []

/-- The trace the sampling loop is expected to produce after a given number
of completed iterations: a fetch with no preceding sleep on the first
iteration, then a 5-unit sleep before the fetch of every later iteration. -/
def expected_trace : Nat → List Ev
  | 0 => []
  | 1 => [Ev.fetch]
  | k + 2 => expected_trace (k + 1) ++ [Ev.sleep 5, Ev.fetch]

/-! ## Helper lemmas -/

theorem pyLjust_length (s : PyStr) (w : Nat) : (pyLjust s w).length = max s.length w := by
  simp [pyLjust]
  omega

theorem take_ljust_length (s : PyStr) (w : Nat) : (pyLjust (s.take w) w).length = w := by
  rw [pyLjust_length]
  simp

theorem summary_field_length (s : PyStr) : (summary_field s).length = 300 := by
  rw [summary_field, pyLjust_length]
  have h1 : (s.take 297).length ≤ 297 := by simp
  have h2 : ellipsis.length = 3 := by decide
  simp only [List.length_append]
  omega

theorem as_resonite_string_length (a : WikipediaArticle) :
    a.as_resonite_string.length = 600 := by
  simp only [WikipediaArticle.as_resonite_string, List.length_append,
    take_ljust_length, summary_field_length]

theorem as_resonite_string_split (a : WikipediaArticle) :
    a.as_resonite_string =
      (pyLjust (a.title.take 100) 100 ++ pyLjust (a.title_url_safe.take 100) 100 ++
        pyLjust (a.pdf_url.take 100) 100) ++ summary_field a.summary := by
  simp [WikipediaArticle.as_resonite_string, List.append_assoc]

/-! ## Claims -/

/-- C4: for every sequence of `n` articles with arbitrary field lengths, the
fixed-width record encoding of the sequence has length exactly
`n * (100 + 100 + 100 + 300) = 600 * n` characters. -/
theorem encode_length_exact (articles : List WikipediaArticle) :
    (encode articles).length = 600 * articles.length := by
  induction articles with
  | nil => rfl
  | cons a rest ih =>
    simp only [encode, List.flatMap_cons, List.length_append, List.length_cons] at *
    rw [as_resonite_string_length, ih]
    ring

/-- C3 (amended): the summary field of the record encoding has width 300,
but the marker is unconditional — the encoder always keeps at most the first
297 characters of the summary and appends the literal "..." before padding,
even when the summary would have fit within the width unmodified. -/
theorem summary_field_always_marked (a : WikipediaArticle) :
    a.as_resonite_string.drop 300 = pyLjust (a.summary.take 297 ++ ellipsis) 300 ∧
    (a.as_resonite_string.drop 300).length = 300 := by
  have h : a.as_resonite_string.drop 300 = summary_field a.summary := by
    rw [as_resonite_string_split]
    apply List.drop_left'
    simp [take_ljust_length]
  constructor
  · rw [h, summary_field]
  · rw [h, summary_field_length]

/-- C3 (counterexample): a two-character summary fits comfortably within the
width-300 field, yet the encoded summary field is not the summary padded
unmodified — the encoder appends "..." to it anyway. -/
theorem summary_fit_unmodified_cex :
    (('H' :: 'i' :: []) : PyStr).length ≤ 300 ∧
    (WikipediaArticle.as_resonite_string
        ⟨[], [], [], [], [], 'H' :: 'i' :: []⟩).drop 300 ≠
      pyLjust ('H' :: 'i' :: []) 300 := by
  decide

theorem pySplitGo_ne_nil (sep : PyStr) (fuel : Nat) (s : PyStr) :
    pySplitGo sep fuel s ≠ [] := by
  induction fuel generalizing s with
  | zero => cases s <;> simp [pySplitGo]
  | succ fuel ih =>
    cases s with
    | nil => simp [pySplitGo]
    | cons c rest =>
      simp only [pySplitGo]
      split
      · simp
      · split <;> simp

theorem pySplitGo_eq_of_not_occurs (sep : PyStr) (fuel : Nat) (s : PyStr)
    (h : ¬ sep <:+: s) : pySplitGo sep fuel s = [s] := by
  induction fuel generalizing s with
  | zero => cases s <;> rfl
  | succ fuel ih =>
    cases s with
    | nil => rfl
    | cons c rest =>
      have hnp : ¬ (sep ≠ [] ∧ sep.isPrefixOf (c :: rest) = true) := by
        rintro ⟨_, hp⟩
        exact h (List.IsPrefix.isInfix (List.isPrefixOf_iff_prefix.mp hp))
      have hrest : ¬ sep <:+: rest := by
        rintro ⟨pre, post, heq⟩
        exact h ⟨c :: pre, post, by simp only [List.cons_append]; rw [heq]⟩
      simp only [pySplitGo]
      rw [if_neg hnp, ih rest hrest]

theorem pySplitGo_length_ge_two (sep : PyStr) (hsep : sep ≠ []) (fuel : Nat) (s : PyStr)
    (hle : s.length ≤ fuel) (h : sep <:+: s) : 2 ≤ (pySplitGo sep fuel s).length := by
  induction fuel generalizing s with
  | zero =>
    have hs : s = [] := List.eq_nil_of_length_eq_zero (Nat.le_zero.mp hle)
    subst hs
    obtain ⟨pre, post, heq⟩ := h
    simp only [List.append_eq_nil] at heq
    exact absurd heq.1.2 hsep
  | succ fuel ih =>
    cases s with
    | nil =>
      obtain ⟨pre, post, heq⟩ := h
      simp only [List.append_eq_nil] at heq
      exact absurd heq.1.2 hsep
    | cons c rest =>
      by_cases hp : sep.isPrefixOf (c :: rest) = true
      · have hstep : pySplitGo sep (fuel + 1) (c :: rest) =
            [] :: pySplitGo sep fuel (List.drop (sep.length - 1) rest) := by
          simp only [pySplitGo]
          rw [if_pos ⟨hsep, hp⟩]
        rw [hstep]
        have hne := pySplitGo_ne_nil sep fuel (List.drop (sep.length - 1) rest)
        have := List.length_pos.mpr hne
        simp only [List.length_cons]
        omega
      · obtain ⟨pre, post, heq⟩ := h
        cases pre with
        | nil =>
          exact absurd (List.isPrefixOf_iff_prefix.mpr ⟨post, by simpa using heq⟩) hp
        | cons d pre2 =>
          simp only [List.cons_append, List.cons.injEq] at heq
          have hrest : sep <:+: rest := ⟨pre2, post, heq.2⟩
          have hle2 : rest.length ≤ fuel := by
            simp only [List.length_cons] at hle
            omega
          have h2 := ih rest hle2 hrest
          have hstep : pySplitGo sep (fuel + 1) (c :: rest) =
              match pySplitGo sep fuel rest with
              | [] => [[c]]
              | p :: ps => (c :: p) :: ps := by
            simp only [pySplitGo]
            rw [if_neg (fun hand => hp hand.2)]
          rw [hstep]
          cases hh : pySplitGo sep fuel rest with
          | nil => rw [hh] at h2; simp at h2
          | cons p ps =>
            rw [hh] at h2
            simpa using h2

theorem pySplit_eq_of_not_occurs (sep s : PyStr) (h : ¬ sep <:+: s) :
    pySplit sep s = [s] :=
  pySplitGo_eq_of_not_occurs sep s.length s h

theorem pySplit_length_ge_two (sep : PyStr) (hsep : sep ≠ []) (s : PyStr)
    (h : sep <:+: s) : 2 ≤ (pySplit sep s).length :=
  pySplitGo_length_ge_two sep hsep s.length s (Nat.le_refl _) h

/-- C7 (amended): constructing an Article succeeds exactly when the
canonical URL contains the wiki path marker; when the marker is absent the
constructor raises.  The "always non-empty title_url_safe" part of the
original claim is dropped: the retained segment is whatever follows the
first marker occurrence (up to the next occurrence, if any) and can be
empty, as the counterexample shows. -/
theorem article_construction_succeeds_iff_marker (title url : PyStr)
    (links : List PyStr) (summary : PyStr) :
    (mkWikipediaArticle title url links summary).isSome = true ↔
      wiki_marker <:+: url := by
  constructor
  · intro h
    by_contra hn
    rw [mkWikipediaArticle, pySplit_eq_of_not_occurs _ _ hn] at h
    simp at h
  · intro h
    have h2 := pySplit_length_ge_two wiki_marker (by decide) url h
    rw [mkWikipediaArticle, List.getElem?_eq_getElem (by omega)]
    simp

/-- C7 (counterexample): the URL consisting of the article URL prefix alone
contains the wiki path marker, yet the constructed Article has an empty
title_url_safe — refuting the claim that a marker-containing URL always
yields a non-empty title_url_safe. -/
theorem article_nonempty_segment_cex :
    wiki_marker <:+: ("https://en.wikipedia.org/wiki/".toList) ∧
    (mkWikipediaArticle [] ("https://en.wikipedia.org/wiki/".toList) [] []).map
        (fun a => a.title_url_safe) = some [] :=
  ⟨⟨"https://en.".toList, [], by decide⟩, by decide⟩

theorem mkWikipediaArticle_pdf_url (title url : PyStr) (links : List PyStr)
    (summary : PyStr) (a : WikipediaArticle)
    (h : mkWikipediaArticle title url links summary = some a) :
    a.pdf_url = WikipediaArticle.get_pdf_url_from_title_url_safe a.title_url_safe := by
  unfold mkWikipediaArticle at h
  cases hs : (pySplit wiki_marker url)[1]? with
  | none => rw [hs] at h; cases h
  | some tus => rw [hs] at h; cases h; rfl

/-- C8: pdf_url is a pure function of title_url_safe.  First conjunct: the
pdf_url computed at construction equals get_pdf_url_from_title_url_safe
applied to the constructed title_url_safe.  Second conjunct: any two
constructed articles with equal title_url_safe have equal pdf_url. -/
theorem pdf_url_pure_function :
    (∀ (title url : PyStr) (links : List PyStr) (summary : PyStr)
       (a : WikipediaArticle),
      mkWikipediaArticle title url links summary = some a →
      a.pdf_url = WikipediaArticle.get_pdf_url_from_title_url_safe a.title_url_safe) ∧
    (∀ (t1 u1 : PyStr) (l1 : List PyStr) (s1 : PyStr) (t2 u2 : PyStr)
       (l2 : List PyStr) (s2 : PyStr) (a1 a2 : WikipediaArticle),
      mkWikipediaArticle t1 u1 l1 s1 = some a1 →
      mkWikipediaArticle t2 u2 l2 s2 = some a2 →
      a1.title_url_safe = a2.title_url_safe →
      a1.pdf_url = a2.pdf_url) := by
  refine ⟨mkWikipediaArticle_pdf_url, ?_⟩
  intro t1 u1 l1 s1 t2 u2 l2 s2 a1 a2 h1 h2 htus
  rw [mkWikipediaArticle_pdf_url t1 u1 l1 s1 a1 h1,
    mkWikipediaArticle_pdf_url t2 u2 l2 s2 a2 h2, htus]

/-- Witness for C8: two articles constructed from distinct canonical URLs
that share the path segment Cat have the same pdf_url. -/
theorem pdf_url_pure_function_witness :
    ({ title := ['T'], title_url_safe := "Cat".toList,
       pdf_url := pdf_url_base ++ "Cat".toList,
       url := "https://en.wikipedia.org/wiki/Cat".toList,
       links := [], summary := [] } : WikipediaArticle).pdf_url =
    ({ title := ['U'], title_url_safe := "Cat".toList,
       pdf_url := pdf_url_base ++ "Cat".toList,
       url := "http://de.wikipedia.org/wiki/Cat".toList,
       links := [], summary := [] } : WikipediaArticle).pdf_url :=
  pdf_url_pure_function.2 ['T'] ("https://en.wikipedia.org/wiki/Cat".toList) [] []
    ['U'] ("http://de.wikipedia.org/wiki/Cat".toList) [] [] _ _
    (by decide) (by decide) rfl

/-- C10: a URL that does not start with the article URL prefix makes
get_article_by_url return None at once — for every remote behaviour, so no
remote lookup can influence the result — and no error is raised. -/
theorem foreign_url_returns_none (remote : PyStr → RemoteResponse) (url : PyStr)
    (h : ARTICLE_URL.isPrefixOf url = false) :
    get_article_by_url remote url = Except.ok none := by
  simp [get_article_by_url, h]

/-- Witness for C10: a non-wiki URL yields None even when every remote call
would raise. -/
theorem foreign_url_returns_none_witness :
    get_article_by_url (fun _ => RemoteResponse.err) ['f'] = Except.ok none :=
  foreign_url_returns_none (fun _ => RemoteResponse.err) ['f'] (by decide)

/-- C6: when the resolved document reports a (truthy) hyperlink target at
the queried point, the handler returns the PDF URL derived from
title_url_safe — not the reported link — and when the document reports no
target there, it returns the empty string without raising. -/
theorem resolve_link_at_point_behavior {P : Type}
    (collection afterDownload : PyStr → Option (P → Option PyStr))
    (title_url_safe : PyStr) (p : P) (doc : P → Option PyStr)
    (hdoc : resolved_document collection afterDownload
      (title_url_safe ++ pdf_ext) = some doc) :
    (∀ u, doc p = some u → u ≠ [] →
      get_url_at_position collection afterDownload title_url_safe p =
        Except.ok (WikipediaArticle.get_pdf_url_from_title_url_safe title_url_safe)) ∧
    (doc p = none →
      get_url_at_position collection afterDownload title_url_safe p =
        Except.ok []) := by
  constructor
  · intro u hu hne
    simp [get_url_at_position, hdoc, hu, hne]
  · intro hn
    simp [get_url_at_position, hdoc, hn]

/-- Witness for C6: a one-document collection whose document reports a link
at the queried point; the handler returns the derived PDF URL. -/
theorem resolve_link_at_point_behavior_witness :
    get_url_at_position (P := Unit) (fun _ => some (fun _ => some ['h']))
      (fun _ => none) ['A'] () =
      Except.ok (WikipediaArticle.get_pdf_url_from_title_url_safe ['A']) :=
  (resolve_link_at_point_behavior (fun _ => some (fun _ => some ['h']))
    (fun _ => none) ['A'] () (fun _ => some ['h']) rfl).1 ['h'] rfl (by decide)

/-- C5 (corrected counterexample): with a remote that raises a transport
error for every title, get_article_by_url on a well-formed article URL
returns None — the except block absorbs the failure instead of surfacing it
as an error, refuting the claim that transport failures reach the caller. -/
theorem get_article_by_url_error_surfaced_cex :
    get_article_by_url (fun _ => RemoteResponse.err) (ARTICLE_URL ++ ['X']) =
      Except.ok none ∧
    get_article_by_url (fun _ => RemoteResponse.err) (ARTICLE_URL ++ ['X']) ≠
      Except.error PyErr.transport := by
  decide

/-- C5 (amended): get_article_by_url derives the title from the URL path
segment (underscore replaced by space) and delegates to get_article_by_title;
the remote reporting no matching page yields None; and any raised transport
or parse failure is likewise absorbed into None by the enclosing except
block — the function never surfaces an error. -/
theorem get_article_by_url_absorbs :
    (∀ (remote : PyStr → RemoteResponse) (url : PyStr),
      ARTICLE_URL.isPrefixOf url = true →
      ∃ tus, (pySplit ARTICLE_URL url)[1]? = some tus ∧
        get_article_by_url remote url =
          Except.ok (match get_article_by_title (remote (pyReplaceChar tus '_' ' ')) with
            | Except.ok r => r
            | Except.error _ => none)) ∧
    (∀ (remote : PyStr → RemoteResponse) (url : PyStr) (e : PyErr),
      get_article_by_url remote url ≠ Except.error e) := by
  constructor
  · intro remote url h
    have hinf : ARTICLE_URL <:+: url :=
      List.IsPrefix.isInfix (List.isPrefixOf_iff_prefix.mp h)
    have h2 := pySplit_length_ge_two ARTICLE_URL (by decide) url hinf
    refine ⟨(pySplit ARTICLE_URL url)[1], List.getElem?_eq_getElem (by omega), ?_⟩
    rw [get_article_by_url, if_pos h, List.getElem?_eq_getElem (by omega)]
    cases hr : get_article_by_title
        (remote (pyReplaceChar (pySplit ARTICLE_URL url)[1] '_' ' ')) with
    | ok r => simp [hr]
    | error e => simp [hr]
  · intro remote url e
    rw [get_article_by_url]
    by_cases h : ARTICLE_URL.isPrefixOf url = true
    · rw [if_pos h]
      split <;> try simp
      split <;> simp
    · rw [if_neg h]
      simp

/-- Witness for C5: a remote reporting no matching page, on a well-formed
article URL; the delegation equation holds and the result is None. -/
theorem get_article_by_url_absorbs_witness :
    ∃ tus, (pySplit ARTICLE_URL (ARTICLE_URL ++ ['A']))[1]? = some tus ∧
      get_article_by_url (fun _ => RemoteResponse.ok true []) (ARTICLE_URL ++ ['A']) =
        Except.ok (match get_article_by_title (RemoteResponse.ok true []) with
          | Except.ok r => r
          | Except.error _ => none) :=
  get_article_by_url_absorbs.1 (fun _ => RemoteResponse.ok true [])
    (ARTICLE_URL ++ ['A']) (by decide)

theorem processBatch_invariant (min_links n_articles : Nat) :
    ∀ (batch acc : List WikipediaArticle) (seen : List PyStr),
      seen = acc.map (fun a => a.title) →
      (acc.map (fun a => a.title)).Nodup →
      (∀ a ∈ acc, min_links ≤ a.links.length) →
      acc.length < n_articles →
      (processBatch min_links n_articles batch acc seen).2 =
        (processBatch min_links n_articles batch acc seen).1.map (fun a => a.title) ∧
      ((processBatch min_links n_articles batch acc seen).1.map (fun a => a.title)).Nodup ∧
      (∀ a ∈ (processBatch min_links n_articles batch acc seen).1,
        min_links ≤ a.links.length) ∧
      (processBatch min_links n_articles batch acc seen).1.length ≤ n_articles := by
  intro batch
  induction batch with
  | nil =>
    intro acc seen h1 h2 h3 h4
    simp only [processBatch]
    exact ⟨h1, h2, h3, Nat.le_of_lt h4⟩
  | cons a rest ih =>
    intro acc seen h1 h2 h3 h4
    simp only [processBatch]
    by_cases hl : min_links ≤ a.links.length
    · rw [if_pos hl]
      by_cases hm : a.title ∈ seen
      · rw [if_pos hm]
        exact ih acc seen h1 h2 h3 h4
      · rw [if_neg hm]
        have hmem : a.title ∉ acc.map (fun a => a.title) := h1 ▸ hm
        have hseen2 : seen ++ [a.title] = (acc ++ [a]).map (fun a => a.title) := by
          simp [h1]
        have hnodup2 : ((acc ++ [a]).map (fun a => a.title)).Nodup := by
          simp only [List.map_append, List.map_cons, List.map_nil]
          rw [List.nodup_append]
          exact ⟨h2, List.nodup_singleton _, by simpa using hmem⟩
        have hlinks2 : ∀ x ∈ acc ++ [a], min_links ≤ x.links.length := by
          intro x hx
          rcases List.mem_append.mp hx with hx | hx
          · exact h3 x hx
          · simp only [List.mem_singleton] at hx
            exact hx ▸ hl
        by_cases hn : (acc ++ [a]).length = n_articles
        · rw [if_pos hn]
          exact ⟨hseen2.symm ▸ rfl, hnodup2, hlinks2, Nat.le_of_eq hn⟩
        · rw [if_neg hn]
          apply ih (acc ++ [a]) (seen ++ [a.title]) hseen2 hnodup2 hlinks2
          simp only [List.length_append, List.length_cons, List.length_nil] at hn ⊢
          omega
    · rw [if_neg hl]
      exact ih acc seen h1 h2 h3 h4

theorem sampleGo_invariant (source : Nat → Nat → List WikipediaArticle)
    (n_articles min_links count_per_call : Nat) :
    ∀ (fuel iterations : Nat) (acc : List WikipediaArticle) (seen : List PyStr)
      (tr : List Ev) (arts : List WikipediaArticle) (trOut : List Ev),
      seen = acc.map (fun a => a.title) →
      (acc.map (fun a => a.title)).Nodup →
      (∀ a ∈ acc, min_links ≤ a.links.length) →
      acc.length ≤ n_articles →
      sampleGo source n_articles min_links count_per_call fuel iterations acc seen tr =
        some (arts, trOut) →
      arts.length = n_articles ∧
      (∀ a ∈ arts, min_links ≤ a.links.length) ∧
      (arts.map (fun a => a.title)).Nodup := by
  intro fuel
  induction fuel with
  | zero =>
    intro iterations acc seen tr arts trOut h1 h2 h3 h4 h5
    simp only [sampleGo] at h5
    by_cases hlt : acc.length < n_articles
    · rw [if_pos hlt] at h5
      cases h5
    · rw [if_neg hlt] at h5
      rw [Option.some.injEq, Prod.mk.injEq] at h5
      obtain ⟨rfl, rfl⟩ := h5
      exact ⟨Nat.le_antisymm h4 (Nat.le_of_not_lt hlt), h3, h2⟩
  | succ fuel ih =>
    intro iterations acc seen tr arts trOut h1 h2 h3 h4 h5
    simp only [sampleGo] at h5
    by_cases hlt : acc.length < n_articles
    · rw [if_pos hlt] at h5
      have hinv := processBatch_invariant min_links n_articles
        (source iterations count_per_call) acc seen h1 h2 h3 hlt
      exact ih (iterations + 1) _ _ _ arts trOut hinv.1 hinv.2.1 hinv.2.2.1 hinv.2.2.2 h5
    · rw [if_neg hlt] at h5
      rw [Option.some.injEq, Prod.mk.injEq] at h5
      obtain ⟨rfl, rfl⟩ := h5
      exact ⟨Nat.le_antisymm h4 (Nat.le_of_not_lt hlt), h3, h2⟩

/-- C1: whenever the sampling loop returns, it returns exactly
n_articles articles, each with at least min_links links, and no two
returned articles share a title — for every target count, link threshold
and batch size (the batch contents are universally quantified through
the source function). -/
theorem sampler_returns_quota (source : Nat → Nat → List WikipediaArticle)
    (n_articles min_links count_per_call fuel : Nat)
    (arts : List WikipediaArticle) (tr : List Ev)
    (h : get_articles_with_min_links source n_articles min_links count_per_call fuel =
      some (arts, tr)) :
    arts.length = n_articles ∧
    (∀ a ∈ arts, min_links ≤ a.links.length) ∧
    (arts.map (fun a => a.title)).Nodup := by
  rw [get_articles_with_min_links] at h
  exact sampleGo_invariant source n_articles min_links count_per_call fuel 0 [] [] []
    arts tr rfl List.nodup_nil (by simp) (Nat.zero_le _) h

/-- A concrete qualifying article used by witnesses: five links and a
one-character title. -/
def cArt (c : Char) : WikipediaArticle :=
  { title := [c], title_url_safe := [c], pdf_url := [c], url := [c],
    links := [[], [], [], [], []], summary := [] }

/-- Witness for C1: a source offering two qualifying articles fills a
two-article quota in one iteration. -/
theorem sampler_returns_quota_witness :
    ([cArt 'a', cArt 'b'] : List WikipediaArticle).length = 2 ∧
    (∀ a ∈ ([cArt 'a', cArt 'b'] : List WikipediaArticle), 5 ≤ a.links.length) ∧
    (([cArt 'a', cArt 'b'] : List WikipediaArticle).map (fun a => a.title)).Nodup :=
  sampler_returns_quota (fun _ _ => [cArt 'a', cArt 'b']) 2 5 7 1
    [cArt 'a', cArt 'b'] [Ev.fetch] (by decide)

theorem sampleGo_trace (source : Nat → Nat → List WikipediaArticle)
    (n_articles min_links count_per_call : Nat) :
    ∀ (fuel iterations : Nat) (acc : List WikipediaArticle) (seen : List PyStr)
      (tr : List Ev) (arts : List WikipediaArticle) (trOut : List Ev),
      tr = expected_trace iterations →
      sampleGo source n_articles min_links count_per_call fuel iterations acc seen tr =
        some (arts, trOut) →
      ∃ k, trOut = expected_trace k := by
  intro fuel
  induction fuel with
  | zero =>
    intro iterations acc seen tr arts trOut h1 h5
    simp only [sampleGo] at h5
    by_cases hlt : acc.length < n_articles
    · rw [if_pos hlt] at h5
      cases h5
    · rw [if_neg hlt] at h5
      rw [Option.some.injEq, Prod.mk.injEq] at h5
      exact ⟨iterations, h5.2 ▸ h1⟩
  | succ fuel ih =>
    intro iterations acc seen tr arts trOut h1 h5
    simp only [sampleGo] at h5
    by_cases hlt : acc.length < n_articles
    · rw [if_pos hlt] at h5
      apply ih (iterations + 1) _ _ _ arts trOut _ h5
      cases iterations with
      | zero => simp [h1, expected_trace]
      | succ j =>
        rw [h1]
        simp only [Nat.zero_lt_succ, if_pos]
        rw [List.append_assoc]
        rfl
    · rw [if_neg hlt] at h5
      rw [Option.some.injEq, Prod.mk.injEq] at h5
      exact ⟨iterations, h5.2 ▸ h1⟩

/-- C9: in any terminating run of the sampling loop, the event trace is a
first fetch with no preceding sleep, followed by a 5-unit sleep immediately
before the fetch of every later iteration — a later iteration happening
exactly when the accepted count was still below the target after the
previous batch. -/
theorem sampler_backoff_trace (source : Nat → Nat → List WikipediaArticle)
    (n_articles min_links count_per_call fuel : Nat)
    (arts : List WikipediaArticle) (tr : List Ev)
    (h : get_articles_with_min_links source n_articles min_links count_per_call fuel =
      some (arts, tr)) :
    ∃ k, tr = expected_trace k := by
  rw [get_articles_with_min_links] at h
  exact sampleGo_trace source n_articles min_links count_per_call fuel 0 [] [] []
    arts tr rfl h

/-- Witness for C9: a run whose first batch is empty and whose second batch
fills the quota produces the trace fetch, sleep 5, fetch. -/
theorem sampler_backoff_trace_witness :
    ∃ k, ([Ev.fetch, Ev.sleep 5, Ev.fetch] : List Ev) = expected_trace k :=
  sampler_backoff_trace (fun i _ => if i = 0 then [] else [cArt 'a']) 1 5 7 2
    [cArt 'a'] [Ev.fetch, Ev.sleep 5, Ev.fetch] (by decide)

theorem construct_eq_flatMap :
    ∀ l, construct_article_pairs_string l = l.flatMap server_article_record
  | [] => rfl
  | [a] => by simp [construct_article_pairs_string]
  | a :: b :: rest => by
    rw [construct_article_pairs_string, construct_eq_flatMap rest]
    simp [List.append_assoc]

/-- Modelled from the spec: the title-repeated four-field fixed-width record
shape the claim ascribes to GET /articles — title, title again, pdf_url,
summary, with the record codec's widths 100, 100, 100, 300 and its
truncate-then-pad rules. -/
def title_repeated_record (a : WikipediaArticle) : PyStr :=
  pyLjust (a.title.take 100) 100 ++ pyLjust (a.title.take 100) 100 ++
  pyLjust (a.pdf_url.take 100) 100 ++ summary_field a.summary

/-- Ten distinct qualifying articles, a concrete source batch for the
GET /articles counterexample and witness. -/
def arts10 : List WikipediaArticle :=
  ['0', '1', '2', '3', '4', '5', '6', '7', '8', '9'].map cArt

/-- C2 (corrected counterexample): on a concrete source whose first batch
already contains ten qualifying articles, the GET /articles body differs
from the title-repeated four-field record encoding of the sampled articles —
the handler does not use that record shape. -/
theorem articles_route_title_repeated_cex :
    get_articles_body (fun _ _ => arts10) 1 ≠
      (get_articles_with_min_links (fun _ _ => arts10) 10 5 100 1).map
        (fun r => r.1.flatMap title_repeated_record) := by
  decide

/-- C2 (amended): the body of GET /articles is the concatenation, in sample
order, of one record per article of sample(10, 5, 100), but each record has
the three fields title, summary, pdf_url — not title, title, pdf_url,
summary — each left-justified to a minimum width of 100 characters with no
truncation at all. -/
theorem articles_route_record_shape (source : Nat → Nat → List WikipediaArticle)
    (fuel : Nat) (arts : List WikipediaArticle) (tr : List Ev)
    (h : get_articles_with_min_links source 10 5 100 fuel = some (arts, tr)) :
    get_articles_body source fuel =
      some (arts.flatMap (fun a =>
        pyLjust a.title 100 ++ pyLjust a.summary 100 ++ pyLjust a.pdf_url 100)) := by
  rw [get_articles_body, h]
  simp only [Option.map_some', Option.some.injEq]
  rw [construct_eq_flatMap]
  rfl

/-- Witness for C2: the concrete ten-article source, its sampled result and
the three-field body shape. -/
theorem articles_route_record_shape_witness :
    get_articles_body (fun _ _ => arts10) 1 =
      some (arts10.flatMap (fun a =>
        pyLjust a.title 100 ++ pyLjust a.summary 100 ++ pyLjust a.pdf_url 100)) :=
  articles_route_record_shape (fun _ _ => arts10) 1 arts10 [Ev.fetch] (by decide)
